import Mathlib

/-!
# Verification of the todo-list task store (`TodoApp`, src/unnamed/part_002)

Shallow embedding of the task-list state machine of the `TodoApp` class:
the task list held in the DOM `<ul>` is modelled as a `List Task` (DOM
order = list order); the `localStorage` slot is modelled as an
`Option Stored` (a missing key, an unparseable string, or a parsed JSON
value).  JavaScript strings are modelled as Lean `String`s (`trim` /
`toLowerCase` are modelled on their ASCII behaviour, which covers all the
inputs considered here), and `Date.now()` is modelled as an explicit
`now : Nat` argument threaded to the operations that read the clock.
-/

namespace Todo

/-- A task record: the observable data of one `li.task-item` element.
`id` mirrors `taskItem.dataset.id` (a DOM data attribute, always a string);
`text` mirrors `taskContent.textContent`; `completed` mirrors the presence
of the `completed` class on the task content element. -/
structure Task where
  id : String
  text : String
  completed : Bool
  deriving Repr, DecidableEq

/-- Parsed JSON values, the result of `JSON.parse` on the stored payload. -/
inductive JVal where
  | jnull
  | jbool (b : Bool)
  | jnum (n : Int)
  | jstr (s : String)
  | jarr (elems : List JVal)
  | jobj (fields : List (String × JVal))
  deriving Repr

/-- The persistent slot content: `corrupt` stands for a stored string that
`JSON.parse` rejects; `val j` for one that parses to the JSON value `j`. -/
inductive Stored where
  | corrupt
  | val (j : JVal)
  deriving Repr

/-- The alert/error outcomes of the store's operations.  The first four are
the `alert` messages of `handleAdd`; `dataCorrupt` is the `DATA_CORRUPT`
alert of `loadTasks`.  `notFound` is the spec's `NotFoundError`; the code
contains no such error, so no operation ever produces it. -/
inductive Err where
  | emptyTask
  | whitespaceOnly
  | taskTooLong
  | taskExists
  | dataCorrupt
  | notFound
  deriving Repr, DecidableEq

/-- The three `handleAdd` validation alerts (spec's `ValidationError`). -/
def Err.isValidation : Err → Bool
  | .emptyTask => true
  | .whitespaceOnly => true
  | .taskTooLong => true
  | _ => false

/-- `TodoApp.CONFIG.MAX_TASK_LENGTH`. -/
def maxTaskLength : Nat := 200

/-- JavaScript truthiness of a JSON value (`taskData &&`, `id ||`). -/
def truthy : JVal → Bool
  | .jnull => false
  | .jbool b => b
  | .jnum n => n != 0
  | .jstr s => s != ""
  | .jarr _ => true
  | .jobj _ => true

/-- `typeof v === 'object'` for a JSON value (`null`, arrays and objects). -/
def isObjectType : JVal → Bool
  | .jnull => true
  | .jarr _ => true
  | .jobj _ => true
  | _ => false

/-- Property access `v.key` on a parsed JSON value: `some` field value for
an object that has the key, otherwise `none` (JS `undefined`). -/
def getField : JVal → String → Option JVal
  | .jobj fields, key => fields.lookup key
  | _, _ => none

/-- JS `ToString` of a JSON value, as applied by `taskItem.dataset.id = v`. -/
def jsToString : JVal → String
  | .jnull => "null"
  | .jbool b => if b then "true" else "false"
  | .jnum n => toString n
  | .jstr s => s
  | .jarr _ => ""
  | .jobj _ => "[object Object]"

/-- The whitespace characters stripped by JS `String.prototype.trim`
(ASCII model). -/
def isJsWhitespace (c : Char) : Bool :=
  c == ' ' || c == '\t' || c == '\n' || c == '\r' || c == '\x0b' || c == '\x0c'

/-- ASCII model of JS `String.prototype.trim`: strips leading and trailing
whitespace. -/
def jsTrim (s : String) : String :=
  ⟨((s.data.dropWhile isJsWhitespace).reverse.dropWhile isJsWhitespace).reverse⟩

/-- ASCII model of JS `String.prototype.toLowerCase`. -/
def toLowerStr (s : String) : String := ⟨s.data.map Char.toLower⟩

/-- `id || Date.now()` followed by the `dataset.id` string conversion in
`addTask`: a missing or falsy `id` is replaced by the clock reading. -/
def mkId (idv : Option JVal) (now : Nat) : String :=
  match idv with
  | some v => if truthy v then jsToString v else toString now
  | none => toString now

/-- `insertTaskIntoList`: a completed task is appended at the end of the
list (`appendChild`), an incomplete one is inserted at the front
(`insertBefore` the first child). -/
def insertTaskIntoList (t : Task) (completed : Bool) (l : List Task) : List Task :=
  if completed then l ++ [t] else t :: l

/-- `addTask(text, completed, id)`: builds the task record (assigning
`id || Date.now()` to `dataset.id`) and inserts it per
`insertTaskIntoList`.  Returns the created task and the new list. -/
def addTask (text : String) (completed : Bool) (idv : Option JVal) (now : Nat)
    (l : List Task) : Task × List Task :=
  let t : Task := ⟨mkId idv now, text, completed⟩
  (t, insertTaskIntoList t completed l)

/-- `handleAdd`: reads the raw input text and validates it — empty input,
whitespace-only input, raw length over `MAX_TASK_LENGTH`, then the
case-insensitive duplicate scan over the *incomplete* tasks, comparing
against the trimmed input.  On any alert the list is untouched; otherwise
the trimmed text is added as a fresh incomplete task. -/
def handleAdd (taskText : String) (now : Nat) (l : List Task) :
    Option Err × List Task :=
  if taskText = "" then (some .emptyTask, l)
  else if jsTrim taskText = "" then (some .whitespaceOnly, l)
  else if taskText.length > maxTaskLength then (some .taskTooLong, l)
  else
    let normalizedText := jsTrim taskText
    if l.any (fun t => toLowerStr t.text == toLowerStr normalizedText && !t.completed)
    then (some .taskExists, l)
    else (none, (addTask normalizedText false none now l).2)

/-- Removes the first task whose `dataset.id` equals `id`, returning it
and the remaining list; `(none, l)` when no task has that id.  This is the
id-level view of operating on the DOM element with that id. -/
def removeFirstById (id : String) : List Task → Option Task × List Task
  | [] => (none, [])
  | t :: ts =>
    if t.id = id then (some t, ts)
    else ((removeFirstById id ts).1, t :: (removeFirstById id ts).2)

/-- `deleteTask` at the id level: `taskItem.remove()` detaches the element
with that id; when no element has the id nothing happens (the click
dispatcher's `closest('.task-item')` guard returns early).  The function
returns no error — the code has no `NotFoundError`. -/
def deleteTask (id : String) (l : List Task) : Option Err × List Task :=
  (none, (removeFirstById id l).2)

/-- `toggleComplete` at the id level: flips the `completed` class of the
task with that id and moves the element — `insertBefore` the first child
when it becomes incomplete, `appendChild` when it becomes completed.  When
no task has the id nothing happens (the dispatcher guard returns early);
no error is produced — the code has no `NotFoundError`. -/
def toggleComplete (id : String) (l : List Task) : Option Err × List Task :=
  match removeFirstById id l with
  | (none, _) => (none, l)
  | (some t, rest) =>
    if t.completed then (none, { t with completed := false } :: rest)
    else (none, rest ++ [{ t with completed := true }])

/-- The removal loop of `clearCompletedTasks`: every `li` whose content
carries the `completed` class is removed from the list. -/
def removeCompletedTasks : List Task → List Task
  | [] => []
  | t :: ts =>
    if t.completed then removeCompletedTasks ts
    else t :: removeCompletedTasks ts

/-- `clearCompletedTasks`: removes every completed task.  The source
function has no `return` statement, so its JS return value is `undefined`,
modelled as `(none : Option Nat)` — in particular it is never a count. -/
def clearCompletedTasks (l : List Task) : Option Nat × List Task :=
  (none, removeCompletedTasks l)

/-- One task's serialized record in `saveTasks`. -/
def taskToJson (t : Task) : JVal :=
  .jobj [("id", .jstr t.id), ("text", .jstr t.text), ("completed", .jbool t.completed)]

/-- `saveTasks`: serializes the list, in list order, to the stored JSON
array `[{id, text, completed}, ...]`. -/
def saveTasks (l : List Task) : JVal :=
  .jarr (l.map taskToJson)

/-- `isValidTaskData`: element-level validation in `loadTasks` — truthy,
`typeof === 'object'`, a string `text` whose trim is non-empty, and a
boolean `completed`.  (Note: the `id` field is not inspected.) -/
def isValidTaskData (j : JVal) : Bool :=
  truthy j && isObjectType j &&
  (match getField j "text" with
   | some (.jstr s) => jsTrim s != ""
   | _ => false) &&
  (match getField j "completed" with
   | some (.jbool _) => true
   | _ => false)

/-- `taskData.text` of a valid element (the string, else `""`). -/
def getText (j : JVal) : String :=
  match getField j "text" with
  | some (.jstr s) => s
  | _ => ""

/-- `taskData.completed` of a valid element (the boolean, else `false`). -/
def getCompleted (j : JVal) : Bool :=
  match getField j "completed" with
  | some (.jbool b) => b
  | _ => false

/-- The load loop of `loadTasks` over the already-reversed element list:
each valid element is re-added through `addTask` (with its stored id, if
any); invalid elements are skipped with a console warning. -/
def loadRev : List JVal → Nat → List Task → List Task
  | [], _, acc => acc
  | j :: rest, now, acc =>
    loadRev rest now
      (if isValidTaskData j then (addTask (getText j) (getCompleted j) (getField j "id") now acc).2
       else acc)

/-- `loadTasks` starting from the fresh (empty) list of `init`: reads the
slot; a missing key leaves the list empty; an unparseable value or a
non-array JSON value is the `DATA_CORRUPT` path — alert, `removeItem`,
list left empty; an array is traversed from its last element to its first,
adding each valid element.  Returns the alert (if any), the resulting
list, and the slot content afterwards (each `addTask` re-saves, so a
non-trivial load leaves the serialization of the final list). -/
def loadTasks (saved : Option Stored) (now : Nat) :
    Option Err × List Task × Option Stored :=
  match saved with
  | none => (none, [], none)
  | some .corrupt => (some .dataCorrupt, [], none)
  | some (.val j) =>
    match j with
    | .jarr elems =>
      let l := loadRev elems.reverse now []
      (none, l, if l.isEmpty then some (.val j) else some (.val (saveTasks l)))
    | _ => (some .dataCorrupt, [], none)

/-- The incomplete-first ordering invariant: in list order, once a
completed task occurs every later task is completed. -/
def IncompleteFirst (l : List Task) : Prop :=
  l.Pairwise (fun a b => a.completed = true → b.completed = true)

instance : DecidablePred IncompleteFirst := fun l =>
  inferInstanceAs (Decidable (l.Pairwise _))

/-! ## Helper lemmas -/

/-- The observable `(text, completed)` view of a task, used to compare a
loaded list with the stored records independently of ids and order. -/
def taskView (t : Task) : String × Bool := (t.text, t.completed)

/-- The `(text, completed)` view of a stored record. -/
def jsonView (j : JVal) : String × Bool := (getText j, getCompleted j)

theorem removeFirstById_snd_sublist (id : String) (l : List Task) :
    (removeFirstById id l).2.Sublist l := by
  induction l with
  | nil => simp [removeFirstById]
  | cons t ts ih =>
    rw [removeFirstById]
    split
    · exact (List.Sublist.refl ts).cons t
    · exact ih.cons₂ t

theorem removeFirstById_of_not_mem (id : String) (l : List Task)
    (h : ∀ t ∈ l, t.id ≠ id) : removeFirstById id l = (none, l) := by
  induction l with
  | nil => rfl
  | cons t ts ih =>
    rw [removeFirstById]
    rw [if_neg (h t (List.mem_cons_self t ts))]
    rw [ih (fun u hu => h u (List.mem_cons_of_mem t hu))]

theorem removeFirstById_perm (id : String) (l : List Task) (t : Task)
    (rest : List Task) (h : removeFirstById id l = (some t, rest)) :
    l.Perm (t :: rest) := by
  induction l generalizing rest with
  | nil => simp [removeFirstById] at h
  | cons a ts ih =>
    rw [removeFirstById] at h
    split at h
    · obtain ⟨h1, h2⟩ := Prod.mk.injEq .. ▸ h
      injection h1 with h1
      subst h1; subst h2
      exact List.Perm.refl _
    · obtain ⟨h1, h2⟩ := Prod.mk.injEq .. ▸ h
      have hts : removeFirstById id ts = (some t, (removeFirstById id ts).2) := by
        rw [← h1]
      have hperm := ih _ hts
      have p1 : (a :: ts).Perm (a :: t :: (removeFirstById id ts).2) := hperm.cons a
      have p2 : (a :: t :: (removeFirstById id ts).2).Perm
          (t :: a :: (removeFirstById id ts).2) := List.Perm.swap t a _
      rw [← h2]
      exact p1.trans p2

theorem removeCompletedTasks_eq_filter (l : List Task) :
    removeCompletedTasks l = l.filter (fun t => !t.completed) := by
  induction l with
  | nil => rfl
  | cons t ts ih =>
    rw [removeCompletedTasks]
    rcases hc : t.completed with _ | _ <;> simp [List.filter, hc, ih]

theorem removeCompletedTasks_sublist (l : List Task) :
    (removeCompletedTasks l).Sublist l := by
  rw [removeCompletedTasks_eq_filter]; exact List.filter_sublist l

theorem inv_nil : IncompleteFirst [] := List.Pairwise.nil

theorem inv_cons {t : Task} {l : List Task} (hc : t.completed = false)
    (h : IncompleteFirst l) : IncompleteFirst (t :: l) := by
  exact List.Pairwise.cons (fun b _ hb => by rw [hc] at hb; cases hb) h

theorem inv_append {t : Task} {l : List Task} (hc : t.completed = true)
    (h : IncompleteFirst l) : IncompleteFirst (l ++ [t]) := by
  rw [IncompleteFirst, List.pairwise_append]
  exact ⟨h, List.pairwise_singleton _ _, fun a _ b hb _ => by
    cases List.mem_singleton.mp hb; exact hc⟩

theorem inv_sublist {l₁ l₂ : List Task} (hs : l₁.Sublist l₂)
    (h : IncompleteFirst l₂) : IncompleteFirst l₁ :=
  List.Pairwise.sublist hs h

theorem inv_insertTask (t : Task) (c : Bool) (l : List Task)
    (ht : t.completed = c) (h : IncompleteFirst l) :
    IncompleteFirst (insertTaskIntoList t c l) := by
  rw [insertTaskIntoList]
  rcases c with _ | _
  · rw [if_neg (by simp)]; exact inv_cons ht h
  · rw [if_pos rfl]; exact inv_append ht h

theorem inv_loadRev (js : List JVal) (now : Nat) (acc : List Task)
    (h : IncompleteFirst acc) : IncompleteFirst (loadRev js now acc) := by
  induction js generalizing acc with
  | nil => exact h
  | cons j rest ih =>
    rw [loadRev]
    apply ih
    split
    · exact inv_insertTask _ _ _ rfl h
    · exact h

theorem map_insertTask {α : Type} (f : Task → α) (t : Task) (c : Bool)
    (l : List Task) :
    ((insertTaskIntoList t c l).map f).Perm (f t :: l.map f) := by
  rw [insertTaskIntoList]
  rcases c with _ | _
  · rw [if_neg (by simp)]; simp
  · rw [if_pos rfl, List.map_append]
    exact List.perm_append_singleton _ _

theorem loadRev_perm (js : List JVal) (now : Nat) (acc : List Task) :
    ((loadRev js now acc).map taskView).Perm
      ((js.filter isValidTaskData).map jsonView ++ acc.map taskView) := by
  induction js generalizing acc with
  | nil => simp [loadRev]
  | cons j rest ih =>
    rw [loadRev]
    rcases hv : isValidTaskData j with _ | _
    · rw [if_neg (by simp [hv])]
      simpa [List.filter_cons, hv] using ih acc
    · rw [if_pos rfl]
      have step : ((addTask (getText j) (getCompleted j) (getField j "id") now acc).2.map
          taskView).Perm (jsonView j :: acc.map taskView) :=
        map_insertTask taskView _ _ acc
      have p1 := (ih ((addTask (getText j) (getCompleted j) (getField j "id") now acc).2)).trans
        (List.Perm.append_left _ step)
      have p2 : ((rest.filter isValidTaskData).map jsonView ++
          (jsonView j :: acc.map taskView)).Perm
          (jsonView j :: ((rest.filter isValidTaskData).map jsonView ++ acc.map taskView)) :=
        List.perm_middle
      have hgoal := p1.trans p2
      simpa [List.filter_cons, hv] using hgoal

theorem loadTasks_array_perm (elems : List JVal) (now : Nat) :
    ((loadTasks (some (.val (.jarr elems))) now).2.1.map taskView).Perm
      ((elems.filter isValidTaskData).map jsonView) := by
  have h := loadRev_perm elems.reverse now []
  simp only [List.map_nil, List.append_nil] at h
  have h2 : (loadTasks (some (.val (.jarr elems))) now).2.1 =
      loadRev elems.reverse now [] := rfl
  rw [h2]
  exact h.trans (((elems.reverse_perm).filter _).map _)

theorem loadTasks_not_array (now : Nat) (j : JVal)
    (h : ∀ elems, j ≠ JVal.jarr elems) :
    loadTasks (some (.val j)) now = (some .dataCorrupt, [], none) := by
  cases j with
  | jarr elems => exact absurd rfl (h elems)
  | jnull => rfl
  | jbool b => rfl
  | jnum n => rfl
  | jstr s => rfl
  | jobj fields => rfl

/-! ## Claim theorems -/

/-- C1 (code_bug evidence): the round-trip law fails.  Saving the
reachable list `[a✓, b✓]` (two completed tasks) and loading it back on a
fresh store yields `[b✓, a✓]`: `loadTasks` iterates the stored array in
reverse and appends each completed task at the tail, which reverses the
relative order of the completed region, contradicting the code's own
comment that the original order is preserved. -/
theorem round_trip_reverses_completed_region :
    (loadTasks (some (.val (saveTasks
        [⟨"1", "a", true⟩, ⟨"2", "b", true⟩]))) 0).2.1 =
      [⟨"2", "b", true⟩, ⟨"1", "a", true⟩] ∧
    (loadTasks (some (.val (saveTasks
        [⟨"1", "a", true⟩, ⟨"2", "b", true⟩]))) 0).2.1 ≠
      [⟨"1", "a", true⟩, ⟨"2", "b", true⟩] :=
  ⟨rfl, by decide⟩

/-- C3 (counterexample): `clearCompletedTasks` does not return the number
of removed tasks.  Called on a list with no completed task it returns
`none` (JS `undefined`, the source has no `return` statement), not the
count `0` the claim states. -/
theorem clear_completed_no_count_cex :
    (clearCompletedTasks []).1 = none ∧ (clearCompletedTasks []).1 ≠ some 0 :=
  ⟨rfl, by decide⟩

/-- C3 (amended): `clearCompletedTasks` removes all and only the tasks with
`completed == true`, preserving the order of the survivors; when no task is
completed it is a no-op; its return value is `undefined` (no count). -/
theorem clear_completed_removes_exactly_completed (l : List Task) :
    (clearCompletedTasks l).2 = l.filter (fun t => !t.completed) ∧
    (∀ t ∈ (clearCompletedTasks l).2, t.completed = false) ∧
    ((∀ t ∈ l, t.completed = false) → clearCompletedTasks l = (none, l)) ∧
    (clearCompletedTasks l).1 = none := by
  refine ⟨removeCompletedTasks_eq_filter l, ?_, ?_, rfl⟩
  · intro t ht
    have hm : t ∈ l.filter (fun t => !t.completed) := by
      rw [← removeCompletedTasks_eq_filter]; exact ht
    simpa using List.of_mem_filter hm
  · intro h
    rw [clearCompletedTasks, removeCompletedTasks_eq_filter]
    rw [List.filter_eq_self.mpr (fun t ht => by simp [h t ht])]

/-- C3 (witness): on a list with one incomplete task, `clearCompletedTasks`
is a no-op returning `undefined`. -/
theorem clear_completed_removes_exactly_completed_witness :
    clearCompletedTasks [⟨"1", "a", false⟩] = (none, [⟨"1", "a", false⟩]) :=
  (clear_completed_removes_exactly_completed [⟨"1", "a", false⟩]).2.2.1 (by decide)

/-- C4 (counterexample): operating on an id absent from the list produces
no error at all — there is no `NotFoundError` in the code.  `deleteTask`
and `toggleComplete` on the unknown id `"42"` both return with no error
and an unchanged (empty) list, instead of failing with `NotFoundError`. -/
theorem missing_id_ops_no_error_cex :
    deleteTask "42" [] = (none, []) ∧ toggleComplete "42" [] = (none, []) ∧
    (none : Option Err) ≠ some Err.notFound :=
  ⟨rfl, rfl, by decide⟩

/-- C4 (amended): for every id not present in the list, `deleteTask` and
`toggleComplete` do not crash and leave the list unchanged, but they raise
no `NotFoundError` — they are silent no-ops (the event dispatcher finds no
element, removal of a detached node does nothing). -/
theorem missing_id_ops_silent_noop (id : String) (l : List Task)
    (h : ∀ t ∈ l, t.id ≠ id) :
    deleteTask id l = (none, l) ∧ toggleComplete id l = (none, l) := by
  have hr := removeFirstById_of_not_mem id l h
  constructor
  · rw [deleteTask, hr]
  · simp only [toggleComplete, hr]

/-- C4 (witness): deleting or toggling the absent id `"9"` on a one-task
list is a silent no-op. -/
theorem missing_id_ops_silent_noop_witness :
    deleteTask "9" [⟨"1", "a", false⟩] = (none, [⟨"1", "a", false⟩]) ∧
    toggleComplete "9" [⟨"1", "a", false⟩] = (none, [⟨"1", "a", false⟩]) :=
  missing_id_ops_silent_noop "9" [⟨"1", "a", false⟩] (by decide)

/-- C8: loading a persisted value that is valid JSON but not an array (here
a bare object) results in an empty list and the persisted slot cleared
(`localStorage.removeItem`). -/
theorem load_non_array_resets_and_clears (now : Nat) (j : JVal)
    (h : ∀ elems, j ≠ JVal.jarr elems) :
    (loadTasks (some (.val j)) now).2.1 = [] ∧
    (loadTasks (some (.val j)) now).2.2 = none := by
  rw [loadTasks_not_array now j h]
  exact ⟨rfl, rfl⟩

/-- C8 (witness): loading the bare object `{"x": 1}` leaves the list empty
and clears the slot. -/
theorem load_non_array_resets_and_clears_witness :
    (loadTasks (some (.val (.jobj [("x", .jnum 1)]))) 0).2.1 = [] ∧
    (loadTasks (some (.val (.jobj [("x", .jnum 1)]))) 0).2.2 = none :=
  load_non_array_resets_and_clears 0 (.jobj [("x", .jnum 1)])
    (fun _ h => nomatch h)

set_option maxRecDepth 4000 in
/-- C2 (counterexample): length validation runs on the raw, untrimmed
input.  The input `"a"` followed by 200 spaces has trimmed length 1 (well
under the 200 limit) yet `handleAdd` rejects it with the too-long alert,
so a text whose trimmed length is at most 200 does not always pass length
validation. -/
theorem add_length_check_untrimmed_cex :
    (handleAdd (String.mk ('a' :: List.replicate 200 ' ')) 0 []).1 =
      some Err.taskTooLong ∧
    jsTrim (String.mk ('a' :: List.replicate 200 ' ')) = "a" ∧
    (jsTrim (String.mk ('a' :: List.replicate 200 ' '))).length ≤ maxTaskLength :=
  ⟨rfl, rfl, by decide⟩

/-- C2 (amended): `handleAdd` fails with a validation alert exactly when
the trimmed text is empty or the *raw* text exceeds 200 characters, and
every failed add (validation or duplicate) leaves the task list
unchanged. -/
theorem add_validates_raw_text (text : String) (now : Nat) (l : List Task) :
    ((∃ e, (handleAdd text now l).1 = some e ∧ e.isValidation = true) ↔
      (jsTrim text = "" ∨ text.length > maxTaskLength)) ∧
    ((handleAdd text now l).1 ≠ none → (handleAdd text now l).2 = l) := by
  simp only [handleAdd]
  split_ifs with h1 h2 h3 h4
  · subst h1
    constructor
    · constructor
      · intro _; exact Or.inl rfl
      · intro _; exact ⟨Err.emptyTask, rfl, rfl⟩
    · intro _; rfl
  · constructor
    · constructor
      · intro _; exact Or.inl h2
      · intro _; exact ⟨Err.whitespaceOnly, rfl, rfl⟩
    · intro _; rfl
  · constructor
    · constructor
      · intro _; exact Or.inr h3
      · intro _; exact ⟨Err.taskTooLong, rfl, rfl⟩
    · intro _; rfl
  · constructor
    · constructor
      · rintro ⟨e, he, hv⟩
        injection he with he
        subst he
        exact absurd hv (by decide)
      · rintro (h | h)
        · exact absurd h h2
        · exact absurd h h3
    · intro _; rfl
  · constructor
    · constructor
      · rintro ⟨e, he, hv⟩
        exact absurd he (by simp)
      · rintro (h | h)
        · exact absurd h h2
        · exact absurd h h3
    · intro h; exact absurd rfl h

/-- C2 (witness): whitespace-only input fails validation and leaves the
list unchanged. -/
theorem add_validates_raw_text_witness :
    (∃ e, (handleAdd " " 0 []).1 = some e ∧ e.isValidation = true) ∧
    (handleAdd " " 0 []).2 = [] :=
  ⟨(add_validates_raw_text " " 0 []).1.mpr (Or.inl rfl),
   (add_validates_raw_text " " 0 []).2 (by decide)⟩

/-- C5 (counterexample): an element with no `id` field does not cause a
whole-payload abort.  Loading the one-element array
`[{"text": "a", "completed": false}]` (no `id`) succeeds and yields one
task with a freshly generated id, not the empty list the claim requires. -/
theorem missing_id_element_loaded_cex :
    (loadTasks (some (.val (.jarr
        [.jobj [("text", .jstr "a"), ("completed", .jbool false)]]))) 7).2.1 =
      [⟨"7", "a", false⟩] ∧
    (loadTasks (some (.val (.jarr
        [.jobj [("text", .jstr "a"), ("completed", .jbool false)]]))) 7).2.1 ≠
      [] :=
  ⟨rfl, by decide⟩

/-- C5 (amended): the whole-payload `DataCorruptError` abort happens
exactly for payloads that are unparseable or not an array; any array
payload loads without a corruption error, keeping precisely its valid
elements (as `(text, completed)` records, up to the incomplete-first
reordering); `isValidTaskData` never inspects `id`, so an element carrying
only a valid `text` and `completed` is loaded, with a fresh id. -/
theorem load_corruption_only_top_level :
    (∀ (now : Nat) (j : JVal), (∀ elems, j ≠ JVal.jarr elems) →
      loadTasks (some (.val j)) now = (some .dataCorrupt, [], none)) ∧
    (∀ (now : Nat) (elems : List JVal),
      (loadTasks (some (.val (.jarr elems))) now).1 = none ∧
      ((loadTasks (some (.val (.jarr elems))) now).2.1.map taskView).Perm
        ((elems.filter isValidTaskData).map jsonView)) ∧
    (∀ (s : String) (b : Bool), jsTrim s ≠ "" →
      isValidTaskData (.jobj [("text", .jstr s), ("completed", .jbool b)]) = true) := by
  refine ⟨loadTasks_not_array, fun now elems => ⟨rfl, loadTasks_array_perm elems now⟩,
    fun s b h => ?_⟩
  simp only [isValidTaskData, truthy, isObjectType, getField]
  simp [List.lookup, h]

/-- C5 (witness): a bare number payload aborts wholesale; an id-less but
otherwise valid element is accepted by the element validator. -/
theorem load_corruption_only_top_level_witness :
    loadTasks (some (.val (.jnum 3))) 0 = (some .dataCorrupt, [], none) ∧
    isValidTaskData (.jobj [("text", .jstr "a"), ("completed", .jbool true)]) = true :=
  ⟨load_corruption_only_top_level.1 0 (.jnum 3) (fun _ h => nomatch h),
   load_corruption_only_top_level.2.2 "a" true (by decide)⟩

/-- C6: incomplete-first ordering is an invariant of every operation —
`handleAdd`, `toggleComplete`, `deleteTask`, `clearCompletedTasks` preserve
it and `loadTasks` establishes it from scratch; moreover `addTask` puts an
incomplete task at the head and a completed task at the tail, and toggling
moves the task to the tail when it becomes completed and to the head when
it becomes incomplete. -/
theorem incomplete_first_invariant :
    (∀ (text : String) (now : Nat) (l : List Task), IncompleteFirst l →
      IncompleteFirst (handleAdd text now l).2) ∧
    (∀ (id : String) (l : List Task), IncompleteFirst l →
      IncompleteFirst (toggleComplete id l).2) ∧
    (∀ (id : String) (l : List Task), IncompleteFirst l →
      IncompleteFirst (deleteTask id l).2) ∧
    (∀ (l : List Task), IncompleteFirst l →
      IncompleteFirst (clearCompletedTasks l).2) ∧
    (∀ (saved : Option Stored) (now : Nat),
      IncompleteFirst (loadTasks saved now).2.1) ∧
    (∀ (text : String) (idv : Option JVal) (now : Nat) (l : List Task),
      (addTask text false idv now l).2 = (addTask text false idv now l).1 :: l) ∧
    (∀ (text : String) (idv : Option JVal) (now : Nat) (l : List Task),
      (addTask text true idv now l).2 = l ++ [(addTask text true idv now l).1]) ∧
    (∀ (id : String) (l : List Task) (t : Task) (rest : List Task),
      removeFirstById id l = (some t, rest) → t.completed = false →
      (toggleComplete id l).2 = rest ++ [{ t with completed := true }]) ∧
    (∀ (id : String) (l : List Task) (t : Task) (rest : List Task),
      removeFirstById id l = (some t, rest) → t.completed = true →
      (toggleComplete id l).2 = { t with completed := false } :: rest) := by
  refine ⟨?_, ?_, ?_, ?_, ?_, ?_, ?_, ?_, ?_⟩
  · intro text now l h
    simp only [handleAdd]
    split_ifs with h1 h2 h3 h4
    · exact h
    · exact h
    · exact h
    · exact h
    · exact inv_cons rfl h
  · intro id l h
    rcases hr : removeFirstById id l with ⟨o, rest⟩
    cases o with
    | none => simp only [toggleComplete, hr]; exact h
    | some t =>
      have hsub : rest.Sublist l := by
        have := removeFirstById_snd_sublist id l
        rw [hr] at this
        exact this
      simp only [toggleComplete, hr]
      rcases t.completed with _ | _
      · rw [if_neg (by simp)]
        exact inv_append rfl (inv_sublist hsub h)
      · rw [if_pos rfl]
        exact inv_cons rfl (inv_sublist hsub h)
  · intro id l h
    exact inv_sublist (removeFirstById_snd_sublist id l) h
  · intro l h
    exact inv_sublist (removeCompletedTasks_sublist l) h
  · intro saved now
    cases saved with
    | none => exact inv_nil
    | some st =>
      cases st with
      | corrupt => exact inv_nil
      | val j =>
        cases j with
        | jarr elems => exact inv_loadRev elems.reverse now [] inv_nil
        | jnull => exact inv_nil
        | jbool b => exact inv_nil
        | jnum n => exact inv_nil
        | jstr s => exact inv_nil
        | jobj fields => exact inv_nil
  · intro text idv now l; rfl
  · intro text idv now l; rfl
  · intro id l t rest hr hc
    simp only [toggleComplete, hr, hc]
    rw [if_neg (by simp)]
  · intro id l t rest hr hc
    simp only [toggleComplete, hr, hc]
    simp

/-- C6 (witness): the invariant holds after adding to, toggling in and
clearing a concrete mixed list. -/
theorem incomplete_first_invariant_witness :
    IncompleteFirst (handleAdd "c" 0 [⟨"1", "a", false⟩, ⟨"2", "b", true⟩]).2 ∧
    IncompleteFirst (toggleComplete "1" [⟨"1", "a", false⟩, ⟨"2", "b", true⟩]).2 ∧
    IncompleteFirst (clearCompletedTasks [⟨"1", "a", false⟩, ⟨"2", "b", true⟩]).2 :=
  ⟨incomplete_first_invariant.1 "c" 0 [⟨"1", "a", false⟩, ⟨"2", "b", true⟩] (by decide),
   incomplete_first_invariant.2.1 "1" [⟨"1", "a", false⟩, ⟨"2", "b", true⟩] (by decide),
   incomplete_first_invariant.2.2.2.1 [⟨"1", "a", false⟩, ⟨"2", "b", true⟩] (by decide)⟩

/-- C7 (counterexample): the duplicate check compares the *trimmed* input
against the stored text, so an incomplete task whose stored text carries
surrounding whitespace (reachable by loading, which does not trim) defeats
it: with the incomplete task `" a"` in the list (loaded from storage),
adding the input `" a"` — case-insensitively equal to that task's text —
succeeds and duplicates the entry instead of failing with the duplicate
alert. -/
theorem duplicate_check_untrimmed_text_cex :
    toLowerStr " a" = toLowerStr (Task.mk "1" " a" false).text ∧
    (Task.mk "1" " a" false).completed = false ∧
    (loadTasks (some (.val (.jarr [.jobj
        [("id", .jstr "1"), ("text", .jstr " a"), ("completed", .jbool false)]]))) 0).2.1 =
      [Task.mk "1" " a" false] ∧
    (handleAdd " a" 0 [Task.mk "1" " a" false]).1 = none ∧
    (handleAdd " a" 0 [Task.mk "1" " a" false]).2 ≠ [Task.mk "1" " a" false] :=
  ⟨rfl, rfl, rfl, rfl, by decide⟩

/-- C7 (amended): for input passing validation, `handleAdd` fails with the
duplicate alert exactly when some *incomplete* task's stored text is
case-insensitively equal to the trimmed input (completed tasks never
block), and a duplicate failure leaves the list unchanged.  For stored
texts that are themselves trimmed — all interactively added tasks — this
coincides with case-insensitive equality of the texts. -/
theorem duplicate_check_on_trimmed_input (text : String) (now : Nat)
    (l : List Task) (h1 : text ≠ "") (h2 : jsTrim text ≠ "")
    (h3 : text.length ≤ maxTaskLength) :
    (((handleAdd text now l).1 = some .taskExists) ↔
      ∃ t ∈ l, t.completed = false ∧ toLowerStr t.text = toLowerStr (jsTrim text)) ∧
    ((handleAdd text now l).1 = some .taskExists → (handleAdd text now l).2 = l) := by
  simp only [handleAdd]
  rw [if_neg h1, if_neg h2, if_neg (Nat.not_lt.mpr h3)]
  by_cases hd : l.any
      (fun t => toLowerStr t.text == toLowerStr (jsTrim text) && !t.completed) = true
  · rw [if_pos hd]
    refine ⟨⟨fun _ => ?_, fun _ => rfl⟩, fun _ => rfl⟩
    obtain ⟨t, ht, hp⟩ := List.any_eq_true.mp hd
    rw [Bool.and_eq_true, beq_iff_eq, Bool.not_eq_true'] at hp
    exact ⟨t, ht, hp.2, hp.1⟩
  · rw [if_neg hd]
    refine ⟨⟨fun hcontra => absurd hcontra (by simp), ?_⟩,
      fun hcontra => absurd hcontra (by simp)⟩
    rintro ⟨t, ht, hc, he⟩
    refine absurd (List.any_eq_true.mpr ⟨t, ht, ?_⟩) hd
    rw [Bool.and_eq_true, beq_iff_eq, Bool.not_eq_true']
    exact ⟨he, hc⟩

/-- C7 (witness): adding `"A"` with the incomplete task `"a"` present
fails with the duplicate alert. -/
theorem duplicate_check_on_trimmed_input_witness :
    (handleAdd "A" 0 [⟨"1", "a", false⟩]).1 = some Err.taskExists :=
  (duplicate_check_on_trimmed_input "A" 0 [⟨"1", "a", false⟩]
      (by decide) (by decide) (by decide)).1.mpr
    ⟨⟨"1", "a", false⟩, by simp, rfl, rfl⟩

/-- C9: loading an array with an invalid element — one whose `text` field
is missing or not a string, whose text trims to empty, or whose
`completed` field is not a boolean — does not abort: no corruption alert
is raised and exactly the valid elements' `(text, completed)` records are
loaded (up to the incomplete-first reordering performed by the re-add). -/
theorem load_skips_invalid_elements :
    (∀ (now : Nat) (pre post : List JVal) (j : JVal), isValidTaskData j = false →
      (loadTasks (some (.val (.jarr (pre ++ j :: post)))) now).1 = none ∧
      ((loadTasks (some (.val (.jarr (pre ++ j :: post)))) now).2.1.map taskView).Perm
        (((pre ++ post).filter isValidTaskData).map jsonView)) ∧
    (∀ j : JVal, (∀ s, getField j "text" ≠ some (.jstr s)) →
      isValidTaskData j = false) ∧
    (∀ (j : JVal) (s : String), getField j "text" = some (.jstr s) →
      jsTrim s = "" → isValidTaskData j = false) ∧
    (∀ j : JVal, (∀ b, getField j "completed" ≠ some (.jbool b)) →
      isValidTaskData j = false) := by
  refine ⟨?_, ?_, ?_, ?_⟩
  · intro now pre post j hbad
    refine ⟨rfl, ?_⟩
    have h := loadTasks_array_perm (pre ++ j :: post) now
    have hf : (pre ++ j :: post).filter isValidTaskData =
        (pre ++ post).filter isValidTaskData := by
      simp [List.filter_append, List.filter_cons, hbad]
    rw [hf] at h
    exact h
  · intro j hne
    cases hj : getField j "text" with
    | none => simp [isValidTaskData, hj]
    | some v =>
      cases v with
      | jstr s => exact absurd hj (hne s)
      | jnull => simp [isValidTaskData, hj]
      | jbool b => simp [isValidTaskData, hj]
      | jnum n => simp [isValidTaskData, hj]
      | jarr elems => simp [isValidTaskData, hj]
      | jobj fields => simp [isValidTaskData, hj]
  · intro j s hj hs
    simp [isValidTaskData, hj, hs]
  · intro j hne
    cases hj : getField j "completed" with
    | none => simp [isValidTaskData, hj]
    | some v =>
      cases v with
      | jbool b => exact absurd hj (hne b)
      | jnull => simp [isValidTaskData, hj]
      | jstr s => simp [isValidTaskData, hj]
      | jnum n => simp [isValidTaskData, hj]
      | jarr elems => simp [isValidTaskData, hj]
      | jobj fields => simp [isValidTaskData, hj]

/-- C9 (witness): an array of a valid element, an element with no `text`
field, and another valid element loads without corruption alert, and the
loaded `(text, completed)` records are a permutation of the two valid
elements'. -/
theorem load_skips_invalid_elements_witness :
    (loadTasks (some (.val (.jarr
        ([.jobj [("id", .jstr "1"), ("text", .jstr "x"), ("completed", .jbool false)]] ++
         .jobj [("completed", .jbool true)] ::
         [.jobj [("id", .jstr "2"), ("text", .jstr "y"), ("completed", .jbool true)]])))) 0).1 =
      none ∧
    ((loadTasks (some (.val (.jarr
        ([.jobj [("id", .jstr "1"), ("text", .jstr "x"), ("completed", .jbool false)]] ++
         .jobj [("completed", .jbool true)] ::
         [.jobj [("id", .jstr "2"), ("text", .jstr "y"), ("completed", .jbool true)]])))) 0).2.1.map
      taskView).Perm
      ((([JVal.jobj [("id", .jstr "1"), ("text", .jstr "x"), ("completed", .jbool false)]] ++
         [JVal.jobj [("id", .jstr "2"), ("text", .jstr "y"), ("completed", .jbool true)]]).filter
        isValidTaskData).map jsonView) :=
  load_skips_invalid_elements.1 0
    [JVal.jobj [("id", .jstr "1"), ("text", .jstr "x"), ("completed", .jbool false)]]
    [JVal.jobj [("id", .jstr "2"), ("text", .jstr "y"), ("completed", .jbool true)]]
    (JVal.jobj [("completed", .jbool true)]) (by decide)

/-- C10 (counterexample): id uniqueness is not enforced.  Two interactive
adds sharing one `Date.now()` millisecond (modelled by the same clock
reading `5`) produce two distinct tasks with the same id `"5"`; likewise,
loading a stored array whose elements carry the same id `"x"` yields two
tasks with the same id. -/
theorem duplicate_ids_cex :
    (handleAdd "b" 5 (handleAdd "a" 5 []).2).2 =
      [⟨"5", "b", false⟩, ⟨"5", "a", false⟩] ∧
    ¬ (((handleAdd "b" 5 (handleAdd "a" 5 []).2).2.map Task.id).Nodup) ∧
    (loadTasks (some (.val (.jarr
        [.jobj [("id", .jstr "x"), ("text", .jstr "a"), ("completed", .jbool false)],
         .jobj [("id", .jstr "x"), ("text", .jstr "b"), ("completed", .jbool false)]]))) 0).2.1 =
      [⟨"x", "a", false⟩, ⟨"x", "b", false⟩] ∧
    ¬ (((loadTasks (some (.val (.jarr
        [.jobj [("id", .jstr "x"), ("text", .jstr "a"), ("completed", .jbool false)],
         .jobj [("id", .jstr "x"), ("text", .jstr "b"), ("completed", .jbool false)]]))) 0).2.1.map
      Task.id).Nodup) :=
  ⟨rfl, by decide, rfl, by decide⟩

/-- C10 (amended): id uniqueness holds only conditionally — an interactive
add preserves it when the clock reading (stringified) differs from every
existing id, and the other operations never create ids, so they preserve
it unconditionally; the code itself contains no uniqueness enforcement. -/
theorem ids_unique_under_fresh_clock :
    (∀ (text : String) (now : Nat) (l : List Task),
      (∀ t ∈ l, t.id ≠ toString now) → (l.map Task.id).Nodup →
      ((handleAdd text now l).2.map Task.id).Nodup) ∧
    (∀ (id : String) (l : List Task), (l.map Task.id).Nodup →
      ((deleteTask id l).2.map Task.id).Nodup) ∧
    (∀ (id : String) (l : List Task), (l.map Task.id).Nodup →
      ((toggleComplete id l).2.map Task.id).Nodup) ∧
    (∀ (l : List Task), (l.map Task.id).Nodup →
      ((clearCompletedTasks l).2.map Task.id).Nodup) := by
  refine ⟨?_, ?_, ?_, ?_⟩
  · intro text now l hfresh hn
    simp only [handleAdd]
    split_ifs with h1 h2 h3 h4
    · exact hn
    · exact hn
    · exact hn
    · exact hn
    · refine List.nodup_cons.mpr ⟨?_, hn⟩
      intro hmem
      obtain ⟨t, ht, hid⟩ := List.mem_map.mp hmem
      exact hfresh t ht hid
  · intro id l hn
    exact List.Nodup.sublist ((removeFirstById_snd_sublist id l).map Task.id) hn
  · intro id l hn
    rcases hr : removeFirstById id l with ⟨o, rest⟩
    cases o with
    | none => simp only [toggleComplete, hr]; exact hn
    | some t =>
      have hperm := (removeFirstById_perm id l t rest hr).map Task.id
      have hn2 : (t.id :: rest.map Task.id).Nodup := by
        simp only [List.map_cons] at hperm
        exact hperm.nodup hn
      simp only [toggleComplete, hr]
      rcases t.completed with _ | _
      · rw [if_neg (by simp)]
        simp only [List.map_append, List.map_cons, List.map_nil]
        exact (List.perm_append_singleton _ _).symm.nodup hn2
      · rw [if_pos rfl]
        simp only [List.map_cons]
        exact hn2
  · intro l hn
    exact List.Nodup.sublist ((removeCompletedTasks_sublist l).map Task.id) hn

/-- C10 (witness): adding at a clock reading whose string differs from the
existing id preserves uniqueness. -/
theorem ids_unique_under_fresh_clock_witness :
    ((handleAdd "a" 5 [⟨"3", "b", false⟩]).2.map Task.id).Nodup :=
  ids_unique_under_fresh_clock.1 "a" 5 [⟨"3", "b", false⟩] (by decide) (by decide)

end Todo
